import Mathlib

/-!
Verification development for the PuppyMatch backend.

The definitions below are a shallow embedding of the backend code in
`src/server.ts` and `src/auth.ts` (the primary copies; the second, draft
copy of the PUT-interests handler in `server.ts` is embedded separately as
`putInterestsDraft`).  The relational store (Postgres tables `users` and
`user_interests`) is modelled as explicit lists; each HTTP handler becomes
a pure function from the store (and the already-verified token subject,
which `requireAuth` attaches as `req.userId`) to a response, paired with
the updated store when the handler writes.

JavaScript / SQL string primitives (`trim`, `toLowerCase`, text
comparison) are modelled over `List Char` so that every definition reduces
in the kernel; `strKey` maps a string to its list of code points, and text
ordering is the lexicographic order on those lists (C collation).
-/

/-- JS `String.prototype.trim`: drop whitespace from both ends. -/
def jsTrim (s : String) : String :=
  ⟨((s.data.dropWhile Char.isWhitespace).reverse.dropWhile Char.isWhitespace).reverse⟩

/-- JS `String.prototype.toLowerCase` (ASCII model, as `Char.toLower`). -/
def jsToLower (s : String) : String :=
  ⟨s.data.map Char.toLower⟩

/-- Code points of a string; text comparisons go through this key. -/
def strKey (s : String) : List Nat :=
  s.data.map Char.toNat

/-- Text `≤` as the database compares strings: lexicographic on code points. -/
def tagLE (a b : String) : Prop :=
  strKey a ≤ strKey b

instance : DecidableRel tagLE :=
  fun a b => inferInstanceAs (Decidable (strKey a ≤ strKey b))

instance : IsTotal String tagLE :=
  ⟨fun a b => le_total (strKey a) (strKey b)⟩

instance : IsTrans String tagLE :=
  ⟨fun _ _ _ h1 h2 => le_trans h1 h2⟩

/-- An HTTP error response: status code plus the JSON error body
(`error` kind, `message`, optional `detail` as in `weak_password`). -/
structure ErrResp where
  status : Nat
  err : String
  message : String
  detail : Option String := none
deriving DecidableEq, Repr

/-- A signed JWT; `jwt.sign({ sub: userId }, JWT_SECRET)` binds the subject. -/
structure Token where
  sub : String
deriving DecidableEq, Repr

/-- Token issuing `sign(userId)` from `auth.ts`. -/
def sign (userId : String) : Token := ⟨userId⟩

/-- A row of the `users` table. -/
structure UserRow where
  id : String
  email : String
  passwordHash : String
  username : Option String := none
  avatarUrl : Option String := none
  telegramHandle : Option String := none
deriving DecidableEq, Repr

/-- The relational store: the `users` table and the `user_interests`
table (primary key `user_id`, value the `interests` text array). -/
structure DB where
  users : List UserRow
  userInterests : List (String × List String)
deriving DecidableEq, Repr

/-- Lookup `SELECT .. FROM users WHERE id = $1` (first matching row). -/
def findUserById (db : DB) (userId : String) : Option UserRow :=
  db.users.find? (fun u => u.id == userId)

/-- Lookup `SELECT .. FROM users WHERE email = $1` (first matching row). -/
def findByEmail (db : DB) (email : String) : Option UserRow :=
  db.users.find? (fun u => u.email == email)

/-- Lookup `SELECT interests FROM user_interests WHERE user_id = $1`. -/
def interestsRow (db : DB) (userId : String) : Option (List String) :=
  (db.userInterests.find? (fun p => p.1 == userId)).map Prod.snd

/-- Write `INSERT .. ON CONFLICT (user_id) DO UPDATE SET interests = ..`. -/
def upsertInterests (rows : List (String × List String)) (userId : String)
    (tags : List String) : List (String × List String) :=
  if rows.any (fun p => p.1 == userId) then
    rows.map (fun p => if p.1 == userId then (p.1, tags) else p)
  else
    rows ++ [(userId, tags)]

/-- Model of the external `bcryptjs` collaborator: an injective salted
hash, compared by rehash-and-compare as `bcrypt.compare` does. -/
def bcryptHash (password : String) : String :=
  "2a10." ++ password

/-- Comparison `bcrypt.compare(password, hash)`. -/
def bcryptCompare (password hash : String) : Bool :=
  bcryptHash password == hash

/-- A register/login request body: `{ email?, username?, password? }`. -/
structure AuthBody where
  email : Option String := none
  username : Option String := none
  password : Option String := none
deriving DecidableEq, Repr

/-- Value `(body.email ?? body.username ?? "").toString().trim()` from `auth.ts`. -/
def rawEmailOf (b : AuthBody) : String :=
  jsTrim (b.email.getD (b.username.getD ""))

/-- Value `(body.password ?? "").toString()` from `auth.ts`. -/
def passwordOf (b : AuthBody) : String :=
  b.password.getD ""

/-- Successful auth response: `{ token, user: { id, email } }`. -/
structure AuthOk where
  token : Token
  userId : String
  email : String
deriving DecidableEq, Repr

/-- The 401 login failure, identical for unknown email and bad password. -/
def invalidCredentials : ErrResp :=
  ⟨401, "invalid_credentials", "Invalid username/password combination", none⟩

/-- The 401 emitted when a verified token names a user no longer stored. -/
def userNotFoundForToken : ErrResp :=
  ⟨401, "user_not_found_for_token",
    "Your session is no longer valid. Please log in again.", none⟩

/-- Handler `POST /auth/register` from `auth.ts`; `newId` stands for the
`gen_random_uuid()` the insert would mint. -/
def register (db : DB) (newId : String) (b : AuthBody) :
    Except ErrResp (AuthOk × DB) :=
  if rawEmailOf b = "" ∨ passwordOf b = "" then
    .error ⟨400, "invalid_body",
      "Please provide both an email (or username) and a password.", none⟩
  else if (passwordOf b).length < 6 then
    .error ⟨400, "weak_password",
      "Your password is too short. It must be at least 6 characters.",
      some "min_length_6"⟩
  else if (findByEmail db (jsToLower (rawEmailOf b))).isSome then
    .error ⟨400, "email_taken",
      "That email is already registered. Try logging in instead.", none⟩
  else
    .ok (⟨sign newId, newId, jsToLower (rawEmailOf b)⟩,
      { db with users := db.users ++
          [⟨newId, jsToLower (rawEmailOf b), bcryptHash (passwordOf b), none, none, none⟩] })

/-- Handler `POST /auth/login` from `auth.ts`. -/
def login (db : DB) (b : AuthBody) : Except ErrResp AuthOk :=
  if rawEmailOf b = "" ∨ passwordOf b = "" then
    .error ⟨400, "invalid_body",
      "Please provide both your email (or username) and password.", none⟩
  else
    match findByEmail db (jsToLower (rawEmailOf b)) with
    | none => .error invalidCredentials
    | some u =>
      if bcryptCompare (passwordOf b) u.passwordHash then
        .ok ⟨sign u.id, u.id, jsToLower (rawEmailOf b)⟩
      else
        .error invalidCredentials

/-- One element of `interestsSchema`: zod trims (`jsTrim s` is the
transformed element), then requires the result non-empty and at most 64
characters. -/
def parseInterestTag (s : String) : Except String String :=
  if (jsTrim s).length < 1 then .error "Interest can’t be empty"
  else if (jsTrim s).length > 64 then .error "Interest is too long"
  else .ok (jsTrim s)

/-- Element-wise parsing of the `interests` array (first error wins). -/
def parseTags : List String → Except String (List String)
  | [] => .ok []
  | s :: rest =>
    match parseInterestTag s with
    | .error e => .error e
    | .ok t =>
      match parseTags rest with
      | .error e => .error e
      | .ok ts => .ok (t :: ts)

/-- Validation `interestsSchema.safeParse`: every tag valid and at most 500 tags. -/
def parseInterests (interests : List String) : Except String (List String) :=
  if interests.length > 500 then .error "Too many interests"
  else parseTags interests

/-- JSON body of a PUT-interests response, over the keys any of the
handler copies may emit (`ok`, `saved`, `userId`); absent keys are `none`. -/
structure PutRespBody where
  ok : Option Bool := none
  saved : Option Nat := none
  userId : Option String := none
deriving DecidableEq, Repr

/-- Handler `PUT /users/me/interests` (primary copy in `server.ts`): validate the
body, 401 when the token's user is gone, upsert the trimmed array, and
respond `{ ok: true }`. -/
def putInterests (db : DB) (userId : String) (body : List String) :
    Except ErrResp (PutRespBody × DB) :=
  match parseInterests body with
  | .error msg => .error ⟨400, "invalid_body", msg, none⟩
  | .ok interests =>
    match findUserById db userId with
    | none => .error userNotFoundForToken
    | some _ =>
      .ok ({ ok := some true },
        { db with userInterests := upsertInterests db.userInterests userId interests })

/-- Handler `GET /users/me/interests` (primary copy): 401 when the token user is
gone, else the stored array (or `[]`). -/
def getInterests (db : DB) (userId : String) : Except ErrResp (List String) :=
  match findUserById db userId with
  | none => .error userNotFoundForToken
  | some _ => .ok ((interestsRow db userId).getD [])

/-- Composition `replace` followed immediately by `get` for the same user. -/
def putThenGet (db : DB) (userId : String) (body : List String) :
    Except ErrResp (List String) :=
  match putInterests db userId body with
  | .error e => .error e
  | .ok (_, db') => getInterests db' userId

/-- Handler `PUT /users/me/interests` (draft copy in `server.ts`, over the draft
`user_interests(user_id, interest)` table with primary key on both
columns): delete the user's rows, insert each submitted tag raw, respond
`{ userId, saved: interests.length }`; a duplicate tag violates the
primary key, so the transaction rolls back to a 500. -/
def putInterestsDraft (rows : List (String × String)) (userId : String)
    (body : Option (List String)) :
    Except ErrResp (PutRespBody × List (String × String)) :=
  if (body.getD []).Nodup then
    .ok ({ userId := some userId, saved := some (body.getD []).length },
      rows.filter (fun p => !(p.1 == userId)) ++ (body.getD []).map (fun i => (userId, i)))
  else
    .error ⟨500, "save_failed", "", none⟩

/-- One row of the matches query result, already mapped to the JSON the
handler returns. -/
structure MatchRow where
  id : String
  username : Option String
  avatarUrl : Option String
  telegramHandle : Option String
  overlap : Nat
  common : List String
deriving DecidableEq, Repr

/-- Key `COALESCE(u.username, '')`, the only tiebreak key of the query. -/
def coalesceName (r : MatchRow) : String :=
  r.username.getD ""

/-- The `ORDER BY overlap DESC, COALESCE(u.username, '') ASC` order. -/
def matchLE (a b : MatchRow) : Prop :=
  b.overlap < a.overlap ∨
    (a.overlap = b.overlap ∧ strKey (coalesceName a) ≤ strKey (coalesceName b))

instance : DecidableRel matchLE :=
  fun _ _ => inferInstanceAs (Decidable (_ ∨ _))

instance : IsTotal MatchRow matchLE := by
  refine ⟨fun a b => ?_⟩
  rcases Nat.lt_trichotomy a.overlap b.overlap with h | h | h
  · exact Or.inr (Or.inl h)
  · rcases le_total (strKey (coalesceName a)) (strKey (coalesceName b)) with hk | hk
    · exact Or.inl (Or.inr ⟨h, hk⟩)
    · exact Or.inr (Or.inr ⟨h.symm, hk⟩)
  · exact Or.inl (Or.inl h)

instance : IsTrans MatchRow matchLE := by
  refine ⟨fun a b c hab hbc => ?_⟩
  rcases hab with hab | ⟨hab, hka⟩ <;> rcases hbc with hbc | ⟨hbc, hkb⟩
  · exact Or.inl (lt_trans hbc hab)
  · exact Or.inl (hbc ▸ hab)
  · exact Or.inl (hab ▸ hbc)
  · exact Or.inr ⟨hab.trans hbc, le_trans hka hkb⟩

/-- Aggregate `COUNT(*)` of the lateral double-unnest join: the number of index
pairs of `tags` and `my` carrying the same tag. -/
def pairCount (tags my : List String) : Nat :=
  (tags.map (fun t => my.count t)).sum

/-- Aggregate `ARRAY_AGG(DISTINCT mi.i)`: the distinct matched tags, ascending. -/
def commonTags (my tags : List String) : List String :=
  List.insertionSort tagLE ((my.filter (fun t => tags.contains t)).dedup)

/-- The per-candidate groups of the matches query, in store order: every
other user with at least one matching tag pair, with overlap and common
tags.  (`List.insertionSort` below realizes the SQL ordering; SQL leaves
the relative order of fully tied rows unspecified, an insertion sort keeps
them in store order.) -/
def matchRowsFor (db : DB) (me : String) (my : List String) : List MatchRow :=
  db.userInterests.filterMap (fun p =>
    if p.1 == me then none
    else
      match findUserById db p.1 with
      | none => none
      | some u =>
        if pairCount p.2 my == 0 then none
        else some ⟨u.id, u.username, u.avatarUrl, u.telegramHandle,
          pairCount p.2 my, commonTags my p.2⟩)

/-- Limit `Math.max(1, Math.min(100, Number(req.query.limit) || 20))`: an
absent (or non-numeric) limit is `none`; `0` is falsy in JS, so `0 || 20`
also yields the default. -/
def effectiveLimit (q : Option Int) : Nat :=
  match q with
  | none => 20
  | some n => if n = 0 then 20 else (max 1 (min 100 n)).toNat

/-- The matches SELECT: group, order, and `LIMIT`. -/
def matchQuery (db : DB) (me : String) (my : List String) (limit : Nat) :
    List MatchRow :=
  (List.insertionSort matchLE (matchRowsFor db me my)).take limit

/-- Outcome of `GET /users/me/matches`: the response, plus whether the
candidate SELECT (the second query) was issued at all. -/
structure MatchesOutcome where
  response : Except ErrResp (List MatchRow)
  ranCandidateQuery : Bool

/-- Handler `GET /users/me/matches` (primary copy): read the requester interest
row, short-circuit to `[]` when it is empty or absent, else run the
candidate query.  The handler has no user-existence check and no 401
branch. -/
def getMatchesHandler (db : DB) (userId : String) (limitQ : Option Int) :
    MatchesOutcome :=
  if ((interestsRow db userId).getD []).length == 0 then ⟨.ok [], false⟩
  else
    ⟨.ok (matchQuery db userId ((interestsRow db userId).getD [])
      (effectiveLimit limitQ)), true⟩

/-- The row list of a matches outcome (`[]` for an error response). -/
def rowsOf (m : MatchesOutcome) : List MatchRow :=
  match m.response with
  | .ok l => l
  | .error _ => []

/-- The response body of a successful PUT-interests call. -/
def putRespOf (x : Except ErrResp (PutRespBody × DB)) : Option PutRespBody :=
  match x with
  | .ok (b, _) => some b
  | .error _ => none

/-- The response body of a successful draft PUT-interests call. -/
def draftRespOf (x : Except ErrResp (PutRespBody × List (String × String))) :
    Option PutRespBody :=
  match x with
  | .ok (b, _) => some b
  | .error _ => none

/-- Modelled from the spec: `normalize(L)` as the specification words it —
trim and lowercase each tag, drop empties, deduplicate. -/
def normalizeSpec (l : List String) : List String :=
  ((l.map (fun s => jsToLower (jsTrim s))).filter (fun t => !(t == ""))).dedup

/-- Modelled from the spec: the requested limit clamped into `[1, 100]`. -/
def clampSpec (n : Int) : Nat :=
  (max 1 (min 100 n)).toNat

/-- Modelled from the spec: the claimed tiebreak key — display name when
present, user id otherwise. -/
def claimTieKey (r : MatchRow) : String :=
  match r.username with
  | some n => n
  | none => r.id

/-- Modelled from the spec: the claimed result order — overlap descending,
ties by `claimTieKey` ascending. -/
def claimOrdered (l : List MatchRow) : Prop :=
  List.Pairwise (fun a b =>
    b.overlap < a.overlap ∨
      (a.overlap = b.overlap ∧ strKey (claimTieKey a) ≤ strKey (claimTieKey b))) l

instance : Decidable (claimOrdered l) :=
  inferInstanceAs (Decidable (List.Pairwise _ l))

/-- A store with a single user `u` and no interest rows. -/
def dbSolo : DB :=
  ⟨[⟨"u", "u@x.com", bcryptHash "secret1", none, none, none⟩], []⟩

/-- A store with a single credential row, for the login theorems. -/
def dbAuthOne : DB :=
  ⟨[⟨"u1", "a@x.com", bcryptHash "secret1", none, none, none⟩], []⟩

/-- A store in which user `ghost` does not exist (deleted), while another
user still has interests. -/
def dbGhost : DB :=
  ⟨[⟨"other", "o@x.com", bcryptHash "secret1", none, none, none⟩],
   [("other", ["x"])]⟩

/-- A store producing an overlap tie between a candidate with a username
(`aaa`, username `bob`) and one without (`zzz`). -/
def dbTie : DB :=
  ⟨[⟨"me", "me@x.com", bcryptHash "secret1", none, none, none⟩,
    ⟨"aaa", "a@x.com", bcryptHash "secret1", some "bob", none, none⟩,
    ⟨"zzz", "z@x.com", bcryptHash "secret1", none, none, none⟩],
   [("me", ["x"]), ("aaa", ["x"]), ("zzz", ["x"])]⟩

/-- A store where the requester's stored array carries a duplicate tag
(reachable, since the PUT handler stores the trimmed array verbatim). -/
def dbDup : DB :=
  ⟨[⟨"m", "m@x.com", bcryptHash "secret1", none, none, none⟩,
    ⟨"c", "c@x.com", bcryptHash "secret1", none, none, none⟩],
   [("m", ["hiking", "hiking"]), ("c", ["hiking"])]⟩

/-- The specification's worked example: A = `m` {chess, hiking},
B = `b` {hiking, baking}, C = `c` {chess, hiking}. -/
def dbMatch : DB :=
  ⟨[⟨"m", "m@x.com", bcryptHash "secret1", none, none, none⟩,
    ⟨"b", "b@x.com", bcryptHash "secret1", some "bea", none, none⟩,
    ⟨"c", "c@x.com", bcryptHash "secret1", some "cal", none, none⟩],
   [("m", ["chess", "hiking"]), ("b", ["hiking", "baking"]), ("c", ["chess", "hiking"])]⟩


/-! ## Helper lemmas -/

theorem parseInterestTag_ok {s t : String} (h : parseInterestTag s = .ok t) :
    t = jsTrim s := by
  unfold parseInterestTag at h
  split at h
  · cases h
  · split at h
    · cases h
    · cases h; rfl

theorem parseTags_ok : ∀ {L tags : List String},
    parseTags L = .ok tags → tags = L.map jsTrim := by
  intro L
  induction L with
  | nil => intro tags h; cases h; rfl
  | cons s rest ih =>
    intro tags h
    unfold parseTags at h
    cases hp : parseInterestTag s with
    | error e => rw [hp] at h; cases h
    | ok t =>
      rw [hp] at h
      cases hr : parseTags rest with
      | error e => rw [hr] at h; cases h
      | ok ts =>
        rw [hr] at h
        cases h
        rw [List.map_cons, ← parseInterestTag_ok hp, ← ih hr]

theorem parseInterests_ok {L tags : List String}
    (h : parseInterests L = .ok tags) : tags = L.map jsTrim := by
  unfold parseInterests at h
  split at h
  · cases h
  · exact parseTags_ok h

theorem find?_map_update {rows : List (String × List String)} {u : String}
    {tags : List String} (h : rows.any (fun p => p.1 == u) = true) :
    ((rows.map (fun p => if p.1 == u then (p.1, tags) else p)).find?
        (fun p => p.1 == u)).map Prod.snd = some tags := by
  induction rows with
  | nil => simp at h
  | cons p rest ih =>
    simp only [List.map_cons]
    by_cases hp : (p.1 == u) = true
    · rw [if_pos hp]
      have hfind : List.find? (fun q => q.1 == u)
          ((p.1, tags) :: rest.map (fun q => if q.1 == u then (q.1, tags) else q))
            = some (p.1, tags) :=
        List.find?_cons_of_pos _ hp
      rw [hfind]
      rfl
    · have h' : rest.any (fun p => p.1 == u) = true := by
        simp only [List.any_cons, Bool.or_eq_true] at h
        exact h.resolve_left hp
      rw [if_neg hp]
      have hfind : List.find? (fun q => q.1 == u)
          (p :: rest.map (fun q => if q.1 == u then (q.1, tags) else q))
            = List.find? (fun q => q.1 == u)
              (rest.map (fun q => if q.1 == u then (q.1, tags) else q)) :=
        List.find?_cons_of_neg _ hp
      rw [hfind]
      exact ih h'

theorem find?_append_new {rows : List (String × List String)} {u : String}
    {tags : List String} (h : rows.any (fun p => p.1 == u) = false) :
    ((rows ++ [(u, tags)]).find? (fun p => p.1 == u)).map Prod.snd = some tags := by
  induction rows with
  | nil =>
    rw [List.nil_append]
    have hfind : List.find? (fun q => q.1 == u) [(u, tags)] = some (u, tags) :=
      List.find?_cons_of_pos _ (by simp)
    rw [hfind]
    rfl
  | cons p rest ih =>
    simp only [List.any_cons, Bool.or_eq_false_iff] at h
    have hp : ¬ ((p.1 == u) = true) := by simp [h.1]
    have h' : rest.any (fun p => p.1 == u) = false := h.2
    rw [List.cons_append]
    have hfind : List.find? (fun q => q.1 == u) (p :: (rest ++ [(u, tags)]))
        = List.find? (fun q => q.1 == u) (rest ++ [(u, tags)]) :=
      List.find?_cons_of_neg _ hp
    rw [hfind]
    exact ih h'

theorem interestsRow_upsert (db : DB) (u : String) (tags : List String) :
    interestsRow { db with userInterests := upsertInterests db.userInterests u tags } u
      = some tags := by
  show ((upsertInterests db.userInterests u tags).find? (fun p => p.1 == u)).map Prod.snd
      = some tags
  unfold upsertInterests
  by_cases h : db.userInterests.any (fun p => p.1 == u) = true
  · rw [if_pos h]; exact find?_map_update h
  · rw [if_neg h]
    exact find?_append_new (Bool.eq_false_iff.mpr h)

theorem putInterests_ok {db : DB} {u : String} {L : List String}
    {b : PutRespBody} {db' : DB} (h : putInterests db u L = .ok (b, db')) :
    b = ⟨some true, none, none⟩ ∧ (∃ w, findUserById db u = some w) ∧
    db' = { db with userInterests := upsertInterests db.userInterests u (L.map jsTrim) } := by
  unfold putInterests at h
  cases hp : parseInterests L with
  | error e => rw [hp] at h; cases h
  | ok tags =>
    rw [hp] at h
    cases hw : findUserById db u with
    | none => rw [hw] at h; cases h
    | some w =>
      rw [hw] at h
      injection h with h2
      injection h2 with hb hdb
      subst hb
      subst hdb
      exact ⟨rfl, ⟨w, rfl⟩, by rw [← parseInterests_ok hp]⟩

theorem getInterests_some {db : DB} {u : String} {w : UserRow} {tags : List String}
    (hw : findUserById db u = some w) (ht : interestsRow db u = some tags) :
    getInterests db u = .ok tags := by
  unfold getInterests
  rw [hw, ht]
  rfl

/-! ## C1: interest replace/get round trip -/

/-- C1 (corrected): a successful replace followed by get returns the
per-element trimmed input list — order, duplicates and letter case are
preserved; no lowercasing, empty-dropping or deduplication happens. -/
theorem c1_round_trip_returns_trimmed_list (db : DB) (u : String)
    (L out : List String) (h : putThenGet db u L = .ok out) :
    out = L.map jsTrim := by
  unfold putThenGet at h
  cases hp : putInterests db u L with
  | error e => rw [hp] at h; cases h
  | ok r =>
    obtain ⟨b, db2⟩ := r
    rw [hp] at h
    replace h : getInterests db2 u = .ok out := h
    obtain ⟨hb, ⟨w, hw⟩, hdb⟩ := putInterests_ok hp
    subst hdb
    have hw2 : findUserById
        { db with userInterests := upsertInterests db.userInterests u (L.map jsTrim) } u
          = some w := hw
    rw [getInterests_some hw2 (interestsRow_upsert db u (L.map jsTrim))] at h
    cases h
    rfl

/-- C1 witness: the round trip evaluated on a concrete store and input. -/
theorem c1_round_trip_witness :
    putThenGet dbSolo "u" [" Hiking ", "hiking", "HIKING"]
      = .ok ["Hiking", "hiking", "HIKING"] ∧
    ["Hiking", "hiking", "HIKING"]
      = [" Hiking ", "hiking", "HIKING"].map jsTrim :=
  ⟨by rfl,
   c1_round_trip_returns_trimmed_list dbSolo "u" [" Hiking ", "hiking", "HIKING"]
     ["Hiking", "hiking", "HIKING"] (by rfl)⟩

/-- C1 counterexample: on the valid input `[" Hiking ", "hiking",
"HIKING"]` the round trip returns `["Hiking", "hiking", "HIKING"]`, while
the claimed `normalize` yields the set `{"hiking"}`; `"Hiking"` is in the
returned collection but not in the normalized set. -/
theorem c1_counterexample :
    putThenGet dbSolo "u" [" Hiking ", "hiking", "HIKING"]
      = .ok ["Hiking", "hiking", "HIKING"] ∧
    normalizeSpec [" Hiking ", "hiking", "HIKING"] = ["hiking"] ∧
    "Hiking" ∈ ["Hiking", "hiking", "HIKING"] ∧
    "Hiking" ∉ normalizeSpec [" Hiking ", "hiking", "HIKING"] := by
  refine ⟨by rfl, by decide, by decide, by decide⟩

/-! ## C2: verified-but-nonexistent users at the boundary -/

/-- C2 (code bug): a verified token whose subject is absent from `users`
is rejected with a 401 by the interests endpoints, but the matches
endpoint has no such check: it answers 200 with `[]` after reading the
requester's interest row, instead of failing authentication. -/
theorem c2_ghost_user_matches_not_rejected :
    findUserById dbGhost "ghost" = none ∧
    (getMatchesHandler dbGhost "ghost" none).response = .ok [] ∧
    (getMatchesHandler dbGhost "ghost" none).ranCandidateQuery = false ∧
    getInterests dbGhost "ghost" = .error userNotFoundForToken ∧
    putInterests dbGhost "ghost" ["x"] = .error userNotFoundForToken :=
  ⟨by rfl, by rfl, by rfl, by rfl, by rfl⟩

/-! ## C8: login failure indistinguishability -/

/-- C8 (confirmed): a login with an unknown email and a login with a
known email but non-matching password produce literally the same error
value — same kind, same message, same 401 status. -/
theorem c8_invalid_credentials_indistinguishable (db : DB) (b1 b2 : AuthBody)
    (u : UserRow)
    (h1e : rawEmailOf b1 ≠ "") (h1p : passwordOf b1 ≠ "")
    (h1 : findByEmail db (jsToLower (rawEmailOf b1)) = none)
    (h2e : rawEmailOf b2 ≠ "") (h2p : passwordOf b2 ≠ "")
    (h2 : findByEmail db (jsToLower (rawEmailOf b2)) = some u)
    (h2c : bcryptCompare (passwordOf b2) u.passwordHash = false) :
    login db b1 = .error invalidCredentials ∧
    login db b2 = .error invalidCredentials ∧
    login db b1 = login db b2 := by
  have e1 : login db b1 = .error invalidCredentials := by
    unfold login
    rw [if_neg (not_or.mpr ⟨h1e, h1p⟩), h1]
  have e2 : login db b2 = .error invalidCredentials := by
    unfold login
    rw [if_neg (not_or.mpr ⟨h2e, h2p⟩), h2]
    simp only [h2c, Bool.false_eq_true, if_false]
  exact ⟨e1, e2, by rw [e1, e2]⟩

/-- C8 witness: unknown email vs. wrong password on a concrete store. -/
theorem c8_witness :
    login dbAuthOne ⟨some "ghost@x.com", none, some "pw1234"⟩
      = login dbAuthOne ⟨some " A@x.com ", none, some "wrong1"⟩ :=
  (c8_invalid_credentials_indistinguishable dbAuthOne
    ⟨some "ghost@x.com", none, some "pw1234"⟩
    ⟨some " A@x.com ", none, some "wrong1"⟩
    ⟨"u1", "a@x.com", bcryptHash "secret1", none, none, none⟩
    (by decide) (by decide) (by rfl)
    (by decide) (by decide) (by rfl) (by decide)).2.2

/-! ## C9: PUT interests response shape -/

/-- C9 (corrected): a successful replace through the primary handler
responds `{ ok: true }` (no `saved` field at all); the draft handler
responds `{ userId, saved: n }` where `n` is the raw submitted list
length, not the size of a normalized set. -/
theorem c9_put_response_shape :
    (∀ (db : DB) (u : String) (L : List String) (b : PutRespBody) (db' : DB),
      putInterests db u L = .ok (b, db') → b = ⟨some true, none, none⟩) ∧
    (∀ (rows rows' : List (String × String)) (u : String)
        (body : Option (List String)) (b : PutRespBody),
      putInterestsDraft rows u body = .ok (b, rows') →
      b = ⟨none, some (body.getD []).length, some u⟩) := by
  constructor
  · intro db u L b db' h
    exact (putInterests_ok h).1
  · intro rows rows' u body b h
    unfold putInterestsDraft at h
    split at h
    · injection h with h2
      injection h2 with hb _
      exact hb.symm
    · cases h

/-- C9 witness: both handlers evaluated on concrete successful calls. -/
theorem c9_witness :
    ({ ok := some true } : PutRespBody) = ⟨some true, none, none⟩ ∧
    ({ userId := some "u", saved := some 2 } : PutRespBody)
      = ⟨none, some (((some ["Hiking", "hiking"]).getD []) : List String).length, some "u"⟩ :=
  ⟨c9_put_response_shape.1 dbSolo "u" ["hiking"] { ok := some true }
    ⟨dbSolo.users, [("u", ["hiking"])]⟩ (by rfl),
   c9_put_response_shape.2 [] [("u", "Hiking"), ("u", "hiking")] "u"
    (some ["Hiking", "hiking"]) { userId := some "u", saved := some 2 } (by rfl)⟩

/-- C9 counterexample: the primary handler's success body carries no
`saved` key, and the draft handler reports `saved = 2` for an input whose
normalized set has size 1 — neither matches `{saved: normalized count}`. -/
theorem c9_counterexample :
    putRespOf (putInterests dbSolo "u" ["hiking"]) = some ⟨some true, none, none⟩ ∧
    (some true ≠ (none : Option Bool)) ∧
    draftRespOf (putInterestsDraft [] "u" (some ["Hiking", "hiking"]))
      = some ⟨none, some 2, some "u"⟩ ∧
    (normalizeSpec ["Hiking", "hiking"]).length = 1 ∧
    (2 : Nat) ≠ 1 := by
  refine ⟨by rfl, by decide, by rfl, by decide, by decide⟩

/-! ## C10: username as an alias for email -/

/-- C10 (confirmed): with no `email` field, the `username` field is used
in its place in both register and login — the handlers behave identically
on `{username: x}` and `{email: x}` — and a successful register stores the
trimmed, lowercased value in the email column. -/
theorem c10_username_alias (db : DB) (newId x : String) (p : Option String) :
    register db newId ⟨none, some x, p⟩ = register db newId ⟨some x, none, p⟩ ∧
    login db ⟨none, some x, p⟩ = login db ⟨some x, none, p⟩ ∧
    (∀ (r : AuthOk) (db' : DB),
      register db newId ⟨none, some x, p⟩ = .ok (r, db') →
      (⟨newId, jsToLower (jsTrim x), bcryptHash (p.getD ""), none, none, none⟩ : UserRow)
          ∈ db'.users ∧
      r.email = jsToLower (jsTrim x)) := by
  refine ⟨rfl, rfl, ?_⟩
  intro r db' h
  unfold register at h
  split at h
  · cases h
  · split at h
    · cases h
    · split at h
      · cases h
      · injection h with h2
        injection h2 with hr hdb
        subst hr
        subst hdb
        refine ⟨List.mem_append_right _ ?_, rfl⟩
        simp [rawEmailOf, passwordOf]

/-- C10 witness: registering with only a `username` field stores the
trimmed, lowercased value in the email column. -/
theorem c10_witness :
    (⟨"n1", jsToLower (jsTrim " Bob@X.com "), bcryptHash "secret1",
        none, none, none⟩ : UserRow)
      ∈ (DB.mk [⟨"n1", jsToLower (jsTrim " Bob@X.com "), bcryptHash "secret1",
          none, none, none⟩] []).users :=
  ((c10_username_alias ⟨[], []⟩ "n1" " Bob@X.com " (some "secret1")).2.2
    ⟨⟨"n1"⟩, "n1", jsToLower (jsTrim " Bob@X.com ")⟩
    ⟨[⟨"n1", jsToLower (jsTrim " Bob@X.com "), bcryptHash "secret1",
        none, none, none⟩], []⟩
    (by rfl)).1

/-! ## Match engine lemmas -/

theorem mem_matchRowsFor {db : DB} {me : String} {my : List String} {r : MatchRow}
    (h : r ∈ matchRowsFor db me my) :
    ∃ p, p ∈ db.userInterests ∧ p.1 = r.id ∧ r.id ≠ me ∧ 1 ≤ r.overlap ∧
      r.overlap = pairCount p.2 my ∧ r.common = commonTags my p.2 := by
  unfold matchRowsFor at h
  rw [List.mem_filterMap] at h
  obtain ⟨p, hp, hf⟩ := h
  by_cases hme : (p.1 == me) = true
  · rw [if_pos hme] at hf; cases hf
  · rw [if_neg hme] at hf
    cases hu : findUserById db p.1 with
    | none => rw [hu] at hf; cases hf
    | some u =>
      rw [hu] at hf
      replace hf : (if (pairCount p.2 my == 0) = true then none
          else some (⟨u.id, u.username, u.avatarUrl, u.telegramHandle,
            pairCount p.2 my, commonTags my p.2⟩ : MatchRow)) = some r := hf
      by_cases hov : (pairCount p.2 my == 0) = true
      · rw [if_pos hov] at hf; cases hf
      · rw [if_neg hov] at hf
        injection hf with hf2
        subst hf2
        have hu' : db.users.find? (fun w => w.id == p.1) = some u := hu
        have hid : u.id = p.1 := by
          have := List.find?_some hu'
          exact eq_of_beq this
        have hne : pairCount p.2 my ≠ 0 := fun h0 => hov (beq_iff_eq.mpr h0)
        refine ⟨p, hp, hid.symm, ?_, ?_, rfl, rfl⟩
        · show u.id ≠ me
          rw [hid]
          intro hcon
          exact hme (beq_iff_eq.mpr hcon)
        · show 1 ≤ pairCount p.2 my
          omega

theorem mem_rowsOf_matches {db : DB} {me : String} {q : Option Int} {r : MatchRow}
    (h : r ∈ rowsOf (getMatchesHandler db me q)) :
    r ∈ matchRowsFor db me ((interestsRow db me).getD []) := by
  unfold getMatchesHandler at h
  split at h
  · simp [rowsOf] at h
  · replace h : r ∈ matchQuery db me ((interestsRow db me).getD [])
        (effectiveLimit q) := h
    unfold matchQuery at h
    exact (List.mem_insertionSort matchLE).mp (List.mem_of_mem_take h)

theorem commonTags_sorted (my tags : List String) :
    List.Pairwise tagLE (commonTags my tags) :=
  List.sorted_insertionSort tagLE _

theorem commonTags_nodup (my tags : List String) : (commonTags my tags).Nodup :=
  (List.perm_insertionSort tagLE _).symm.nodup (List.nodup_dedup _)

theorem mem_commonTags {my tags : List String} {t : String} :
    t ∈ commonTags my tags ↔ t ∈ my ∧ t ∈ tags := by
  unfold commonTags
  rw [List.mem_insertionSort, List.mem_dedup, List.mem_filter]
  constructor
  · rintro ⟨h1, h2⟩
    exact ⟨h1, List.elem_iff.mp h2⟩
  · rintro ⟨h1, h2⟩
    exact ⟨h1, List.elem_iff.mpr h2⟩

theorem commonTags_ne_nil {my tags : List String} (h : 1 ≤ pairCount tags my) :
    commonTags my tags ≠ [] := by
  have hx : ∃ t ∈ tags, 0 < my.count t := by
    by_contra hc
    push_neg at hc
    have hz : (tags.map (fun t => my.count t)).sum = 0 := by
      rw [List.sum_eq_zero_iff]
      intro x hmem
      rw [List.mem_map] at hmem
      obtain ⟨t, ht, rfl⟩ := hmem
      exact Nat.le_zero.mp (hc t ht)
    unfold pairCount at h
    omega
  obtain ⟨t, ht, hct⟩ := hx
  have htm : t ∈ my := List.count_pos_iff.mp hct
  exact List.ne_nil_of_mem (mem_commonTags.mpr ⟨htm, ht⟩)

theorem pairCount_eq_filter_length {my : List String} (hmy : my.Nodup) :
    ∀ tags : List String,
      pairCount tags my = (tags.filter (fun t => my.contains t)).length := by
  intro tags
  induction tags with
  | nil => rfl
  | cons t rest ih =>
    by_cases ht : t ∈ my
    · have hc : my.count t = 1 := List.count_eq_one_of_mem hmy ht
      have hcont : (my.contains t) = true := List.elem_iff.mpr ht
      unfold pairCount at ih ⊢
      rw [List.map_cons, List.sum_cons, List.filter_cons_of_pos hcont,
        List.length_cons, ih, hc]
      have he : List.filter my.contains rest
          = List.filter (fun t => my.contains t) rest := rfl
      rw [he]
      omega
    · have hc : my.count t = 0 := List.count_eq_zero_of_not_mem ht
      have hcont : ¬ ((my.contains t) = true) := fun hcon => ht (List.elem_iff.mp hcon)
      unfold pairCount at ih ⊢
      rw [List.map_cons, List.sum_cons, List.filter_cons_of_neg hcont, ih, hc]
      have he : List.filter my.contains rest
          = List.filter (fun t => my.contains t) rest := rfl
      rw [he]
      omega

theorem filter_length_swap {my tags : List String} (hmy : my.Nodup)
    (htags : tags.Nodup) :
    (tags.filter (fun t => my.contains t)).length
      = (my.filter (fun t => tags.contains t)).length := by
  have key : ∀ (a b : List String), a.Nodup →
      (a.filter (fun t => b.contains t)).length = (a.toFinset ∩ b.toFinset).card := by
    intro a b ha
    rw [← List.toFinset_card_of_nodup (ha.filter _)]
    congr 1
    rw [List.toFinset_filter]
    ext x
    simp only [Finset.mem_filter, Finset.mem_inter, List.mem_toFinset]
    constructor
    · rintro ⟨h1, h2⟩
      exact ⟨h1, List.elem_iff.mp h2⟩
    · rintro ⟨h1, h2⟩
      exact ⟨h1, List.elem_iff.mpr h2⟩
  rw [key tags my htags, key my tags hmy, Finset.inter_comm]

theorem pairCount_eq_commonTags_length {my tags : List String}
    (hmy : my.Nodup) (htags : tags.Nodup) :
    pairCount tags my = (commonTags my tags).length := by
  rw [pairCount_eq_filter_length hmy tags, filter_length_swap hmy htags]
  unfold commonTags
  rw [(List.perm_insertionSort tagLE _).length_eq, List.Nodup.dedup (hmy.filter _)]

/-! ## C3: result ordering -/

/-- C3 (corrected, amended part): the match results are sorted by overlap
descending with ties broken by `COALESCE(username, '')` ascending — the
order the query's ORDER BY actually imposes; there is no user-id
tiebreak. -/
theorem c3_sorted_by_coalesced_username (db : DB) (me : String) (q : Option Int) :
    List.Pairwise matchLE (rowsOf (getMatchesHandler db me q)) := by
  unfold getMatchesHandler
  split
  · simp [rowsOf]
  · show List.Pairwise matchLE (matchQuery db me _ _)
    unfold matchQuery
    exact List.Pairwise.sublist (List.take_sublist _ _)
      (List.sorted_insertionSort matchLE _)

/-- C3 counterexample: a requester with a non-empty interest set whose two
candidates tie on overlap; the candidate without a username (`zzz`) sorts
first because `COALESCE` gives it key `''`, while the claimed order
(display name ascending, id ascending when absent) would put `aaa`
(username `bob` < id `zzz`) first. -/
theorem c3_counterexample :
    (interestsRow dbTie "me").getD [] ≠ [] ∧
    rowsOf (getMatchesHandler dbTie "me" none) =
      [⟨"zzz", none, none, none, 1, ["x"]⟩,
       ⟨"aaa", some "bob", none, none, 1, ["x"]⟩] ∧
    ¬ claimOrdered (rowsOf (getMatchesHandler dbTie "me" none)) := by
  refine ⟨by decide, by decide, by decide⟩

/-! ## C4: common tags and overlap count -/

/-- C4 (corrected, amended part): every returned row's `common` lists each
shared tag exactly once, sorted ascending; `overlap` counts the matching
index pairs of the two stored arrays, which equals the number of distinct
shared tags exactly when both stored arrays are duplicate-free. -/
theorem c4_common_sorted_overlap_pairs (db : DB) (me : String) (q : Option Int)
    (r : MatchRow) (h : r ∈ rowsOf (getMatchesHandler db me q)) :
    List.Pairwise tagLE r.common ∧ r.common.Nodup ∧
    ∃ p, p ∈ db.userInterests ∧ p.1 = r.id ∧
      (∀ t, t ∈ r.common ↔ t ∈ (interestsRow db me).getD [] ∧ t ∈ p.2) ∧
      r.overlap = pairCount p.2 ((interestsRow db me).getD []) ∧
      (((interestsRow db me).getD []).Nodup → p.2.Nodup →
        r.overlap = r.common.length) := by
  obtain ⟨p, hp, hpid, hne, hov1, hovEq, hcomm⟩ :=
    mem_matchRowsFor (mem_rowsOf_matches h)
  refine ⟨?_, ?_, p, hp, hpid, ?_, hovEq, ?_⟩
  · rw [hcomm]; exact commonTags_sorted _ _
  · rw [hcomm]; exact commonTags_nodup _ _
  · intro t; rw [hcomm]; exact mem_commonTags
  · intro hmy hp2
    rw [hovEq, hcomm]
    exact pairCount_eq_commonTags_length hmy hp2

/-- C4 witness: the spec's worked example, candidate C with
`common = ["chess", "hiking"]` sorted. -/
theorem c4_witness :
    List.Pairwise tagLE
      ((⟨"c", some "cal", none, none, 2, ["chess", "hiking"]⟩ : MatchRow).common) :=
  (c4_common_sorted_overlap_pairs dbMatch "m" none
    ⟨"c", some "cal", none, none, 2, ["chess", "hiking"]⟩ (by decide)).1

/-- C4 counterexample: with the reachable stored arrays
`["hiking", "hiking"]` for the requester and `["hiking"]` for the
candidate, the query reports `overlap = 2` although the intersection of
the two interest sets has exactly one element (`common = ["hiking"]`). -/
theorem c4_counterexample :
    rowsOf (getMatchesHandler dbDup "m" none)
      = [⟨"c", none, none, none, 2, ["hiking"]⟩] ∧
    normalizeSpec ((interestsRow dbDup "m").getD []) = ["hiking"] ∧
    normalizeSpec ((interestsRow dbDup "c").getD []) = ["hiking"] ∧
    (⟨"c", none, none, none, 2, ["hiking"]⟩ : MatchRow).overlap
      ≠ (⟨"c", none, none, none, 2, ["hiking"]⟩ : MatchRow).common.length := by
  refine ⟨by decide, by decide, by decide, by decide⟩

/-! ## C5: inclusion invariants -/

/-- C5 (confirmed): every returned row has overlap at least 1, a
non-empty `common` list, and a user id different from the requester. -/
theorem c5_positive_overlap_no_self (db : DB) (me : String) (q : Option Int)
    (r : MatchRow) (h : r ∈ rowsOf (getMatchesHandler db me q)) :
    1 ≤ r.overlap ∧ r.id ≠ me ∧ r.common ≠ [] := by
  obtain ⟨p, hp, hpid, hne, hov1, hovEq, hcomm⟩ :=
    mem_matchRowsFor (mem_rowsOf_matches h)
  refine ⟨hov1, hne, ?_⟩
  rw [hcomm]
  exact commonTags_ne_nil (hovEq ▸ hov1)

/-- C5 witness: the invariant evaluated on the spec's worked example. -/
theorem c5_witness :
    (⟨"b", some "bea", none, none, 1, ["hiking"]⟩ : MatchRow).id ≠ "m" :=
  (c5_positive_overlap_no_self dbMatch "m" none
    ⟨"b", some "bea", none, none, 1, ["hiking"]⟩ (by decide)).2.1

/-! ## C6: empty requester set short-circuit -/

/-- C6 (confirmed): when the requester's stored interest set is empty or
absent, the matches handler answers `[]` without error and never issues
the candidate query. -/
theorem c6_empty_requester_short_circuit (db : DB) (u : String) (q : Option Int)
    (h : (interestsRow db u).getD [] = []) :
    (getMatchesHandler db u q).response = .ok [] ∧
    (getMatchesHandler db u q).ranCandidateQuery = false := by
  unfold getMatchesHandler
  rw [h]
  exact ⟨rfl, rfl⟩

/-- C6 witness: a user with no interest row. -/
theorem c6_witness :
    (interestsRow dbSolo "u").getD [] = [] ∧
    (getMatchesHandler dbSolo "u" (some 5)).response = .ok [] ∧
    (getMatchesHandler dbSolo "u" (some 5)).ranCandidateQuery = false :=
  ⟨rfl, (c6_empty_requester_short_circuit dbSolo "u" (some 5) rfl).1,
    (c6_empty_requester_short_circuit dbSolo "u" (some 5) rfl).2⟩

/-! ## C7: limit handling -/

/-- C7 (corrected, amended part): an absent limit yields 20; a requested
limit of `0` is falsy in JS and also yields 20; any other requested limit
is clamped into `[1, 100]`; the result never exceeds the effective
limit. -/
theorem c7_limit_clamped (db : DB) (me : String) (q : Option Int) (n : Int) :
    effectiveLimit none = 20 ∧ effectiveLimit (some 0) = 20 ∧
    (n ≠ 0 → effectiveLimit (some n) = clampSpec n) ∧
    (rowsOf (getMatchesHandler db me q)).length ≤ effectiveLimit q := by
  refine ⟨rfl, rfl, ?_, ?_⟩
  · intro hn
    show (if n = 0 then (20 : Nat) else (max 1 (min 100 n)).toNat) = clampSpec n
    rw [if_neg hn]
    rfl
  · unfold getMatchesHandler
    split
    · simp [rowsOf]
    · show (matchQuery db me _ _).length ≤ _
      unfold matchQuery
      rw [List.length_take]
      exact min_le_left _ _

/-- C7 witness: a nonzero limit is clamped; the result obeys the limit. -/
theorem c7_witness :
    effectiveLimit (some 7) = clampSpec 7 ∧
    (rowsOf (getMatchesHandler dbMatch "m" (some 1))).length
      ≤ effectiveLimit (some 1) :=
  ⟨(c7_limit_clamped dbMatch "m" (some 1) 7).2.2.1 (by decide),
   (c7_limit_clamped dbMatch "m" (some 1) 7).2.2.2⟩

/-- C7 counterexample: a requested limit of `0` is not clamped to `1` —
`0 || 20` is `20` in JS, so the default wins. -/
theorem c7_counterexample :
    effectiveLimit (some 0) = 20 ∧ clampSpec 0 = 1 ∧
    effectiveLimit (some 0) ≠ clampSpec 0 := by decide
